import Mathlib

/-!
Verification development for the scan-task scheduling subsystem declared in
be/src/vec/exec/scan/scanner_scheduler.h (Apache Doris backend).

The file shallowly embeds the code of that header. The inline-defined parts
(SimplifiedScanTask, SimplifiedScanScheduler with its constructor, stop, start,
get_scan_queue and the _work worker loop) are translated directly from the
source. Collaborator components whose implementations live outside the given
source tree (BlockingQueue, ThreadPool / ThreadPoolBuilder, and the
PriorityThreadPool ordering policy) are modelled from the specification, as
noted on each definition.
-/

namespace Doris

/-- Return status of fallible operations, mirroring doris::Status:
either OK or an error carrying a message. -/
inductive Status
  | ok
  | internalError (msg : String)
deriving DecidableEq, Repr

/-- A scan task for the simplified (per-workload) scheduler, translated from
struct SimplifiedScanTask. The C++ field scan_func is a std::function with
void signature whose only observable effect we track abstractly by a numeric
function identity; an empty std::function (default construction) is modelled
as none. scanner_context is a shared_ptr, nullptr modelled as none. -/
structure SimplifiedScanTask where
  scan_func : Option Nat
  scanner_context : Option Nat
deriving DecidableEq, Repr

/-- Default construction SimplifiedScanTask(): value-initializes scan_func to
the empty std::function and scanner_context to nullptr. -/
def SimplifiedScanTask.defaultTask : SimplifiedScanTask :=
  { scan_func := none, scanner_context := none }

/-- Result of invoking a task through scan_task.scan_func() as the worker loop
does: invoking a non-empty std::function runs it; invoking an empty
std::function is not a safe no-op (it raises std::bad_function_call). -/
inductive RunResult
  | ran (fid : Nat)
  | badFunctionCall
deriving DecidableEq, Repr

/-- The unconditional invocation scan_task.scan_func() performed by _work
(scanner_scheduler.h line 145): there is no emptiness check before the call. -/
def SimplifiedScanTask.runScanFunc (t : SimplifiedScanTask) : RunResult :=
  match t.scan_func with
  | some fid => RunResult.ran fid
  | none => RunResult.badFunctionCall

/-- Modelled from the spec: BlockingQueue, the bounded task queue. The spec
says it is a fixed-capacity, thread-safe FIFO with blocking put/get and an
explicit shutdown signal; shutdown unblocks all waiters and causes subsequent
operations to fail cleanly. The implementation file is not under src/. -/
structure BlockingQueue where
  items : List SimplifiedScanTask
  capacity : Nat
  is_shutdown : Bool
deriving DecidableEq, Repr

/-- Modelled from the spec: shutting the queue down sets the shutdown signal. -/
def BlockingQueue.shutdown (q : BlockingQueue) : BlockingQueue :=
  { q with is_shutdown := true }

/-- Modelled from the spec: blocking_get. The outer none means the caller
blocks (queue empty, not shut down), so no state transition occurs. Once the
queue is shut down the operation fails cleanly: the waiter is woken with the
shutdown signal (inner none) rather than a value. Otherwise the FIFO head is
returned. -/
def BlockingQueue.blocking_get (q : BlockingQueue) :
    Option (Option SimplifiedScanTask × BlockingQueue) :=
  if q.is_shutdown then some (none, q)
  else
    match q.items with
    | [] => none
    | t :: ts => some (some t, { q with items := ts })

/-- Modelled from the spec: blocking_put. After shutdown the put fails cleanly
(returns false); at capacity the producer blocks (outer none); otherwise the
task is appended at the tail. -/
def BlockingQueue.blocking_put (q : BlockingQueue) (t : SimplifiedScanTask) :
    Option (Bool × BlockingQueue) :=
  if q.is_shutdown then some (false, q)
  else if q.items.length < q.capacity then
    some (true, { q with items := q.items ++ [t] })
  else none

/-- Modelled from the spec: the fixed worker pool (util/threadpool.h is not
under src/). We track the configuration recorded at construction, the number
of submitted (hence running) worker-loop functions, and the shutdown flag. -/
structure ThreadPool where
  name : String
  min_threads : Nat
  max_threads : Nat
  cgroup_cpu_ctl : Option Nat
  running_workers : Nat
  is_shutdown : Bool
deriving DecidableEq, Repr

/-- Modelled from the spec: submit_func hands one function to the pool, which
starts running it on a worker thread. -/
def ThreadPool.submit_func (p : ThreadPool) : ThreadPool :=
  { p with running_workers := p.running_workers + 1 }

/-- Modelled from the spec: pool shutdown signals termination. -/
def ThreadPool.shutdown (p : ThreadPool) : ThreadPool :=
  { p with is_shutdown := true }

/-- Modelled from the spec: wait() joins all worker threads; on return none of
the pool threads is still running. -/
def ThreadPool.wait (p : ThreadPool) : ThreadPool :=
  { p with running_workers := 0 }

/-- Modelled from the spec: ThreadPoolBuilder as used by start():
ThreadPoolBuilder("Scan_" + wg_name).set_min_threads(n).set_max_threads(n)
.set_cgroup_cpu_ctl(ctl).build(pool). -/
structure ThreadPoolBuilder where
  name : String
  min_threads : Nat := 0
  max_threads : Nat := 0
  cgroup_cpu_ctl : Option Nat := none
deriving Repr

def ThreadPoolBuilder.set_min_threads (b : ThreadPoolBuilder) (n : Nat) :
    ThreadPoolBuilder :=
  { b with min_threads := n }

def ThreadPoolBuilder.set_max_threads (b : ThreadPoolBuilder) (n : Nat) :
    ThreadPoolBuilder :=
  { b with max_threads := n }

def ThreadPoolBuilder.set_cgroup_cpu_ctl (b : ThreadPoolBuilder)
    (c : Option Nat) : ThreadPoolBuilder :=
  { b with cgroup_cpu_ctl := c }

/-- Modelled from the spec: build() constructs the pool from the recorded
configuration, or fails (thread creation / invalid sizing). Fallibility is
driven by an explicit oracle so that both outcomes can be analysed. -/
def ThreadPoolBuilder.build (b : ThreadPoolBuilder) (ok : Bool) :
    Except Status ThreadPool :=
  if ok then
    Except.ok
      { name := b.name, min_threads := b.min_threads,
        max_threads := b.max_threads, cgroup_cpu_ctl := b.cgroup_cpu_ctl,
        running_workers := 0, is_shutdown := false }
  else Except.error (Status.internalError "ThreadPoolBuilder build failed")

/-- State of a SimplifiedScanScheduler: the members declared at
scanner_scheduler.h lines 150 to 154. The unique_ptr _scan_thread_pool is
null until start() builds it, modelled as none. -/
structure SimplifiedScanScheduler where
  _scan_thread_pool : Option ThreadPool
  _scan_task_queue : BlockingQueue
  _is_stop : Bool
  _cgroup_cpu_ctl : Option Nat
  _wg_name : String
deriving DecidableEq, Repr

/-- The constructor SimplifiedScanScheduler(wg_name, cgroup_cpu_ctl): allocates
the bounded queue with the configured capacity, clears the stop flag, stores
the cgroup handle and the workload-group name. _scan_thread_pool stays a null
unique_ptr. queue_size stands for config::doris_scanner_thread_pool_queue_size,
an external configuration input. -/
def SimplifiedScanScheduler.construct (wg_name : String)
    (cgroup_cpu_ctl : Option Nat) (queue_size : Nat) : SimplifiedScanScheduler :=
  { _scan_thread_pool := none
  , _scan_task_queue := { items := [], capacity := queue_size, is_shutdown := false }
  , _is_stop := false
  , _cgroup_cpu_ctl := cgroup_cpu_ctl
  , _wg_name := wg_name }

/-- The observable effects stop() performs, in program order. -/
inductive StopEffect
  | setStopFlag
  | queueShutdown
  | poolShutdown
  | poolWait
deriving DecidableEq, Repr

/-- Outcome of running stop(): crashed records whether the unconditional
dereference _scan_thread_pool->shutdown() hit a null pointer; effects lists
the operations that completed, in order. -/
structure StopOutcome where
  crashed : Bool
  state : SimplifiedScanScheduler
  effects : List StopEffect
deriving DecidableEq, Repr

/-- stop() translated from scanner_scheduler.h lines 118 to 123:
_is_stop.store(true); _scan_task_queue->shutdown();
_scan_thread_pool->shutdown(); _scan_thread_pool->wait().
The two pool calls dereference _scan_thread_pool without a null check. -/
def SimplifiedScanScheduler.stop (s : SimplifiedScanScheduler) : StopOutcome :=
  let s1 := { s with _is_stop := true }
  let s2 := { s1 with _scan_task_queue := s1._scan_task_queue.shutdown }
  match s2._scan_thread_pool with
  | none =>
      { crashed := true, state := s2
      , effects := [StopEffect.setStopFlag, StopEffect.queueShutdown] }
  | some p =>
      { crashed := false
      , state := { s2 with _scan_thread_pool := some p.shutdown.wait }
      , effects := [StopEffect.setStopFlag, StopEffect.queueShutdown,
                    StopEffect.poolShutdown, StopEffect.poolWait] }

/-- The destructor ~SimplifiedScanScheduler() calls stop()
(scanner_scheduler.h lines 113 to 116); the subsequent LOG line is ignored. -/
def SimplifiedScanScheduler.destruct (s : SimplifiedScanScheduler) : StopOutcome :=
  s.stop

/-- Oracle for the fallible steps of start(): whether the pool build succeeds
and whether the i-th submit_func call succeeds. -/
structure StartEnv where
  build_ok : Bool
  submit_ok : Nat → Bool

/-- The submit loop of start(): for (int i = 0; i < thread_num; i++)
RETURN_IF_ERROR(_scan_thread_pool->submit_func(...)). The first failing
submit returns its error immediately; already-submitted worker loops stay in
the pool. Arguments: oracle, current pool state, current index i, remaining
iterations. -/
def submitWorkerLoops (ok : Nat → Bool) : ThreadPool → Nat → Nat → Status × ThreadPool
  | p, _, 0 => (Status.ok, p)
  | p, i, k + 1 =>
      if ok i then submitWorkerLoops ok p.submit_func (i + 1) k
      else (Status.internalError "submit_func failed", p)

/-- start() translated from scanner_scheduler.h lines 125 to 136: build a pool
named "Scan_" + _wg_name with min and max threads both equal to
config::doris_scanner_thread_pool_thread_num (passed as thread_num), attach
_cgroup_cpu_ctl, then submit thread_num copies of the worker loop. Each
RETURN_IF_ERROR propagates the failing Status to the caller at once. -/
def SimplifiedScanScheduler.start (s : SimplifiedScanScheduler)
    (thread_num : Nat) (env : StartEnv) : Status × SimplifiedScanScheduler :=
  match (({ name := "Scan_" ++ s._wg_name } : ThreadPoolBuilder)
          |>.set_min_threads thread_num
          |>.set_max_threads thread_num
          |>.set_cgroup_cpu_ctl s._cgroup_cpu_ctl).build env.build_ok with
  | Except.error st => (st, s)
  | Except.ok p =>
      let r := submitWorkerLoops env.submit_ok p 0 thread_num
      (r.1, { s with _scan_thread_pool := some r.2 })

/-- get_scan_queue() exposes the bounded queue (scanner_scheduler.h line 138). -/
def SimplifiedScanScheduler.get_scan_queue (s : SimplifiedScanScheduler) :
    BlockingQueue :=
  s._scan_task_queue

/-- Program counter of one worker thread running _work
(scanner_scheduler.h lines 141 to 148). checkStop is the loop condition
while (!_is_stop.load()); deq is the call _scan_task_queue->blocking_get;
run t is the call scan_task.scan_func() with the dequeued task in hand;
done is loop exit. -/
inductive WorkerPC
  | checkStop
  | deq
  | run (t : SimplifiedScanTask)
  | done
deriving DecidableEq, Repr

/-- Global state of one SimplifiedScanScheduler together with its worker
threads and one stopper thread executing stop(). stopperPC: 0 before stop()
is called, 1 after _is_stop.store(true), 2 after _scan_task_queue->shutdown().
execLog records, in order, the results of the scan_func invocations performed
by workers. -/
structure SysState where
  sched_is_stop : Bool
  queue : BlockingQueue
  workers : List WorkerPC
  stopperPC : Nat
  execLog : List RunResult
deriving DecidableEq, Repr

/-- Observable events of the interleaved execution. -/
inductive Event
  | checkCont (w : Nat)
  | workerExit (w : Nat)
  | deqTask (w : Nat) (t : SimplifiedScanTask)
  | deqShutdownSignal (w : Nat)
  | exec (w : Nat) (t : SimplifiedScanTask)
  | enq (t : SimplifiedScanTask)
  | setStopFlag
  | queueShutdown
deriving DecidableEq, Repr

/-- The worker thread an event belongs to, if any. -/
def Event.actor : Event → Option Nat
  | Event.checkCont w => some w
  | Event.workerExit w => some w
  | Event.deqTask w _ => some w
  | Event.deqShutdownSignal w => some w
  | Event.exec w _ => some w
  | _ => none

/-- One interleaving step of the system. Worker steps follow _work literally:
the loop condition reads _is_stop; blocking_get either blocks (no step),
returns a task, or returns the shutdown signal; a held task is executed
unconditionally through scan_func. Producer enq models a successful
blocking_put through get_scan_queue(). The stopper steps are the first two
statements of stop() in program order. -/
inductive Step : SysState → Event → SysState → Prop
  | checkCont (s : SysState) (w : Nat)
      (hpc : s.workers[w]? = some WorkerPC.checkStop)
      (hstop : s.sched_is_stop = false) :
      Step s (Event.checkCont w) { s with workers := s.workers.set w WorkerPC.deq }
  | workerExit (s : SysState) (w : Nat)
      (hpc : s.workers[w]? = some WorkerPC.checkStop)
      (hstop : s.sched_is_stop = true) :
      Step s (Event.workerExit w) { s with workers := s.workers.set w WorkerPC.done }
  | deqTask (s : SysState) (w : Nat) (t : SimplifiedScanTask) (q' : BlockingQueue)
      (hpc : s.workers[w]? = some WorkerPC.deq)
      (hget : s.queue.blocking_get = some (some t, q')) :
      Step s (Event.deqTask w t)
        { s with workers := s.workers.set w (WorkerPC.run t), queue := q' }
  | deqShutdownSignal (s : SysState) (w : Nat) (q' : BlockingQueue)
      (hpc : s.workers[w]? = some WorkerPC.deq)
      (hget : s.queue.blocking_get = some (none, q')) :
      Step s (Event.deqShutdownSignal w)
        { s with workers := s.workers.set w WorkerPC.checkStop, queue := q' }
  | exec (s : SysState) (w : Nat) (t : SimplifiedScanTask)
      (hpc : s.workers[w]? = some (WorkerPC.run t)) :
      Step s (Event.exec w t)
        { s with workers := s.workers.set w WorkerPC.checkStop,
                 execLog := s.execLog ++ [t.runScanFunc] }
  | enq (s : SysState) (t : SimplifiedScanTask) (q' : BlockingQueue)
      (hput : s.queue.blocking_put t = some (true, q')) :
      Step s (Event.enq t) { s with queue := q' }
  | setStopFlag (s : SysState)
      (hpc : s.stopperPC = 0) :
      Step s Event.setStopFlag { s with sched_is_stop := true, stopperPC := 1 }
  | queueShutdown (s : SysState)
      (hpc : s.stopperPC = 1) :
      Step s Event.queueShutdown
        { s with queue := s.queue.shutdown, stopperPC := 2 }

/-- Reflexive-transitive closure of Step, collecting the event trace. -/
inductive Reaches : SysState → List Event → SysState → Prop
  | refl (s : SysState) : Reaches s [] s
  | step {s1 : SysState} {e : Event} {s2 : SysState} {tr : List Event} {s3 : SysState}
      (h1 : Step s1 e s2) (h2 : Reaches s2 tr s3) : Reaches s1 (e :: tr) s3

/-- Initial state: n workers entering the loop, empty queue of capacity c,
stop flag clear, stop() not yet called. -/
def initSys (n c : Nat) : SysState :=
  { sched_is_stop := false
  , queue := { items := [], capacity := c, is_shutdown := false }
  , workers := List.replicate n WorkerPC.checkStop
  , stopperPC := 0
  , execLog := [] }

/-- Modelled from the spec: one pending entry of a priority pool of the global
ScannerScheduler, carrying the cumulative service already received by its
owning context and its arrival index. -/
structure PendingTask where
  ctx : Nat
  service : Nat
  arrival : Nat
deriving DecidableEq, Repr

/-- Modelled from the spec: a is preferred over b when its context has
received strictly less cumulative service, ties broken by earlier arrival. -/
def PendingTask.preferredOver (a b : PendingTask) : Bool :=
  a.service < b.service || (a.service == b.service && a.arrival < b.arrival)

/-- One comparison step of the selection: keep the incumbent unless the
challenger is strictly preferred. -/
def pickStep (best u : PendingTask) : PendingTask :=
  if u.preferredOver best then u else best

/-- Modelled from the spec: the scheduling decision of one priority pool
(PriorityThreadPool, implementation not under src/): among the pending tasks,
pick the one whose context has the least cumulative service, preferring the
earliest arrival on ties. -/
def pickNext (l : List PendingTask) : Option PendingTask :=
  match l with
  | [] => none
  | t :: ts => some (ts.foldl pickStep t)

/-- blocking_get yields the shutdown signal only on a shut-down queue, which
it leaves unchanged. -/
lemma blocking_get_signal {q q' : BlockingQueue}
    (h : q.blocking_get = some (none, q')) : q.is_shutdown = true ∧ q' = q := by
  unfold BlockingQueue.blocking_get at h
  by_cases hs : q.is_shutdown = true
  · simp [hs] at h
    exact ⟨hs, h.symm⟩
  · simp [hs] at h
    cases hq : q.items with
    | nil => rw [hq] at h; simp at h
    | cons t ts => rw [hq] at h; simp at h

/-- blocking_get yields a task only from a queue that is not shut down; the
task is the FIFO head and the rest of the state is preserved. -/
lemma blocking_get_task {q q' : BlockingQueue} {t : SimplifiedScanTask}
    (h : q.blocking_get = some (some t, q')) :
    q.is_shutdown = false ∧ q.items = t :: q'.items ∧
    q'.is_shutdown = false ∧ q'.capacity = q.capacity := by
  unfold BlockingQueue.blocking_get at h
  by_cases hs : q.is_shutdown = true
  · simp [hs] at h
  · simp [hs] at h
    cases hq : q.items with
    | nil => rw [hq] at h; simp at h
    | cons u us =>
        rw [hq] at h
        simp at h
        obtain ⟨h1, h2⟩ := h
        subst h1
        subst h2
        exact ⟨by simpa using hs, rfl, rfl, rfl⟩

/-- A successful blocking_put happens only on a queue that is not shut down,
appends at the tail, and preserves the rest of the state. -/
lemma blocking_put_success {q q' : BlockingQueue} {t : SimplifiedScanTask}
    (h : q.blocking_put t = some (true, q')) :
    q.is_shutdown = false ∧ q'.items = q.items ++ [t] ∧
    q'.is_shutdown = false ∧ q'.capacity = q.capacity := by
  unfold BlockingQueue.blocking_put at h
  by_cases hs : q.is_shutdown = true
  · simp [hs] at h
  · simp [hs] at h
    by_cases hc : q.items.length < q.capacity
    · simp [hc] at h
      refine ⟨by simpa using hs, ?_, ?_, ?_⟩
      · rw [← h]
      · rw [← h]
      · rw [← h]
    · simp [hc] at h

/-- System invariant tying the stopper progress to the flags: once stop() has
moved past its first statement the stop flag is set, and the queue can only
be shut down after that. -/
def SysInv (s : SysState) : Prop :=
  (1 ≤ s.stopperPC → s.sched_is_stop = true) ∧
  (s.queue.is_shutdown = true → 1 ≤ s.stopperPC)

lemma step_preserves_inv {s : SysState} {e : Event} {s' : SysState}
    (h : Step s e s') (hi : SysInv s) : SysInv s' := by
  obtain ⟨h1, h2⟩ := hi
  cases h with
  | checkCont w hpc hstop => exact ⟨h1, h2⟩
  | workerExit w hpc hstop => exact ⟨h1, h2⟩
  | deqTask w t q' hpc hget =>
      refine ⟨h1, fun hc => ?_⟩
      have hq' : q'.is_shutdown = false := (blocking_get_task hget).2.2.1
      have hc' : q'.is_shutdown = true := hc
      rw [hq'] at hc'
      exact absurd hc' (by simp)
  | deqShutdownSignal w q' hpc hget =>
      exact ⟨h1, fun _ => h2 (blocking_get_signal hget).1⟩
  | exec w t hpc => exact ⟨h1, h2⟩
  | enq t q' hput =>
      refine ⟨h1, fun hc => ?_⟩
      have hq' : q'.is_shutdown = false := (blocking_put_success hput).2.2.1
      have hc' : q'.is_shutdown = true := hc
      rw [hq'] at hc'
      exact absurd hc' (by simp)
  | setStopFlag hpc => exact ⟨fun _ => rfl, fun _ => le_refl 1⟩
  | queueShutdown hpc =>
      refine ⟨fun _ => h1 (by omega), fun _ => ?_⟩
      show (1 : Nat) ≤ 2
      omega

lemma reaches_preserves_inv {s : SysState} {tr : List Event} {s' : SysState}
    (h : Reaches s tr s') (hi : SysInv s) : SysInv s' := by
  induction h with
  | refl s => exact hi
  | step h1 _ ih => exact ih (step_preserves_inv h1 hi)

lemma initSys_inv (n c : Nat) : SysInv (initSys n c) := by
  constructor
  · intro h; simp [initSys] at h
  · intro h; simp [initSys] at h

/-- Queue shutdown is irreversible along any step. -/
lemma step_shutdown_mono {s : SysState} {e : Event} {s' : SysState}
    (h : Step s e s') (hs : s.queue.is_shutdown = true) :
    s'.queue.is_shutdown = true := by
  cases h with
  | checkCont w hpc hstop => exact hs
  | workerExit w hpc hstop => exact hs
  | deqTask w t q' hpc hget =>
      have hq : s.queue.is_shutdown = false := (blocking_get_task hget).1
      rw [hq] at hs; exact absurd hs (by simp)
  | deqShutdownSignal w q' hpc hget =>
      show q'.is_shutdown = true
      rw [(blocking_get_signal hget).2]; exact hs
  | exec w t hpc => exact hs
  | enq t q' hput =>
      have hq : s.queue.is_shutdown = false := (blocking_put_success hput).1
      rw [hq] at hs; exact absurd hs (by simp)
  | setStopFlag hpc => exact hs
  | queueShutdown hpc => show (s.queue.shutdown).is_shutdown = true; rfl

/-- A worker holding a dequeued task keeps it until its own exec step: along
any interleaving, the program counter stays at run t or the exec event for
that very task appears in the trace. -/
lemma run_persists {w : Nat} {t : SimplifiedScanTask} :
    ∀ {s : SysState} {tr : List Event} {s' : SysState}, Reaches s tr s' →
    s.workers[w]? = some (WorkerPC.run t) →
    s'.workers[w]? = some (WorkerPC.run t) ∨ Event.exec w t ∈ tr := by
  intro s tr s' h
  induction h with
  | refl s => intro hw; exact Or.inl hw
  | @step s1 e s2 tr' s3 h1 h2 ih =>
      intro hw
      by_cases he : e = Event.exec w t
      · exact Or.inr (by simp [he])
      · have hkeep : s2.workers[w]? = some (WorkerPC.run t) := by
          cases h1 with
          | checkCont v hpc hstop =>
              rcases eq_or_ne v w with hv | hv
              · rw [hv, hw] at hpc; exact absurd hpc (by simp)
              · show ((s1.workers.set v WorkerPC.deq)[w]? = _)
                rw [List.getElem?_set_ne hv]; exact hw
          | workerExit v hpc hstop =>
              rcases eq_or_ne v w with hv | hv
              · rw [hv, hw] at hpc; exact absurd hpc (by simp)
              · show ((s1.workers.set v WorkerPC.done)[w]? = _)
                rw [List.getElem?_set_ne hv]; exact hw
          | deqTask v u q' hpc hget =>
              rcases eq_or_ne v w with hv | hv
              · rw [hv, hw] at hpc; exact absurd hpc (by simp)
              · show ((s1.workers.set v (WorkerPC.run u))[w]? = _)
                rw [List.getElem?_set_ne hv]; exact hw
          | deqShutdownSignal v q' hpc hget =>
              rcases eq_or_ne v w with hv | hv
              · rw [hv, hw] at hpc; exact absurd hpc (by simp)
              · show ((s1.workers.set v WorkerPC.checkStop)[w]? = _)
                rw [List.getElem?_set_ne hv]; exact hw
          | exec v u hpc =>
              rcases eq_or_ne v w with hv | hv
              · rw [hv, hw] at hpc
                have hut : t = u := by simpa using hpc
                exact absurd (by rw [hv, ← hut]) he
              · show ((s1.workers.set v WorkerPC.checkStop)[w]? = _)
                rw [List.getElem?_set_ne hv]; exact hw
          | enq u q' hput => exact hw
          | setStopFlag hpc => exact hw
          | queueShutdown hpc => exact hw
        rcases ih hkeep with h3 | h3
        · exact Or.inl h3
        · exact Or.inr (List.mem_cons_of_mem _ h3)

/-- The worker events a step can carry are pinned by the program counter:
a worker whose pc is checkStop under a set stop flag can only exit. -/
lemma only_exit_when_stopped {s : SysState} {e : Event} {s' : SysState} {w : Nat}
    (h : Step s e s') (hpc : s.workers[w]? = some WorkerPC.checkStop)
    (hstop : s.sched_is_stop = true) (hact : e.actor = some w) :
    e = Event.workerExit w := by
  cases h with
  | checkCont v hpcv hstopv =>
      rw [hstop] at hstopv; exact absurd hstopv (by simp)
  | workerExit v hpcv hstopv =>
      have hv : v = w := by simpa [Event.actor] using hact
      rw [hv]
  | deqTask v t q' hpcv hget =>
      have hv : v = w := by simpa [Event.actor] using hact
      rw [hv, hpc] at hpcv; exact absurd hpcv (by simp)
  | deqShutdownSignal v q' hpcv hget =>
      have hv : v = w := by simpa [Event.actor] using hact
      rw [hv, hpc] at hpcv; exact absurd hpcv (by simp)
  | exec v t hpcv =>
      have hv : v = w := by simpa [Event.actor] using hact
      rw [hv, hpc] at hpcv; exact absurd hpcv (by simp)
  | enq t q' hput => exact absurd hact (by simp [Event.actor])
  | setStopFlag hpcv => exact absurd hact (by simp [Event.actor])
  | queueShutdown hpcv => exact absurd hact (by simp [Event.actor])

/-- A deqTask step can only fire while the queue is not yet shut down. -/
lemma deqTask_not_shutdown {s : SysState} {w : Nat} {t : SimplifiedScanTask}
    {s' : SysState} (h : Step s (Event.deqTask w t) s') :
    s.queue.is_shutdown = false := by
  cases h with
  | deqTask v u q' hpc hget => exact (blocking_get_task hget).1

/-- The strict preference order is transitive in its negation: if x is not
preferred over y and y is not preferred over z, then x is not preferred
over z. -/
lemma notPref_trans {x y z : PendingTask}
    (h1 : x.preferredOver y = false) (h2 : y.preferredOver z = false) :
    x.preferredOver z = false := by
  simp [PendingTask.preferredOver] at *
  omega

/-- If u is strictly preferred over a, and u is not preferred over r, then a
is not preferred over r. -/
lemma pref_notPref {u a r : PendingTask}
    (h1 : u.preferredOver a = true) (h2 : u.preferredOver r = false) :
    a.preferredOver r = false := by
  simp [PendingTask.preferredOver] at *
  omega

/-- pickStep returns one of its two arguments. -/
lemma pickStep_cases (a u : PendingTask) :
    pickStep a u = u ∨ pickStep a u = a := by
  unfold pickStep
  by_cases h : u.preferredOver a = true <;> simp [h]

/-- The fold used by pickNext returns its seed or a list element. -/
lemma pickFold_mem (l : List PendingTask) :
    ∀ a : PendingTask, l.foldl pickStep a = a ∨ l.foldl pickStep a ∈ l := by
  induction l with
  | nil => intro a; exact Or.inl rfl
  | cons u us ih =>
      intro a
      have hEq : (u :: us).foldl pickStep a = us.foldl pickStep (pickStep a u) := rfl
      rw [hEq]
      rcases ih (pickStep a u) with h | h
      · rw [h]
        rcases pickStep_cases a u with h2 | h2
        · rw [h2]; exact Or.inr (by simp)
        · exact Or.inl h2
      · exact Or.inr (List.mem_cons_of_mem _ h)

/-- No element of the list is strictly preferred over the fold result, and
neither is the seed. -/
lemma pickFold_min (l : List PendingTask) :
    ∀ a : PendingTask,
      (∀ u ∈ l, u.preferredOver (l.foldl pickStep a) = false) ∧
      a.preferredOver (l.foldl pickStep a) = false := by
  induction l with
  | nil =>
      intro a
      exact ⟨by simp, by simp [PendingTask.preferredOver]⟩
  | cons u us ih =>
      intro a
      obtain ⟨ihall, ihseed⟩ := ih (pickStep a u)
      by_cases hp : u.preferredOver a = true
      · have hps : pickStep a u = u := by simp [pickStep, hp]
        rw [hps] at ihseed ihall
        have hEq : (u :: us).foldl pickStep a = us.foldl pickStep u := by
          show us.foldl pickStep (pickStep a u) = _
          rw [hps]
        refine ⟨?_, ?_⟩
        · intro v hv
          rw [hEq]
          rcases List.mem_cons.mp hv with hv | hv
          · subst hv; exact ihseed
          · exact ihall v hv
        · rw [hEq]
          exact pref_notPref hp ihseed
      · have hp' : u.preferredOver a = false := by
          rw [Bool.not_eq_true] at hp; exact hp
        have hps : pickStep a u = a := by simp [pickStep, hp']
        rw [hps] at ihseed ihall
        have hEq : (u :: us).foldl pickStep a = us.foldl pickStep a := by
          show us.foldl pickStep (pickStep a u) = _
          rw [hps]
        refine ⟨?_, ?_⟩
        · intro v hv
          rw [hEq]
          rcases List.mem_cons.mp hv with hv | hv
          · subst hv; exact notPref_trans hp' ihseed
          · exact ihall v hv
        · rw [hEq]; exact ihseed

/-- When every submit in range succeeds, the submit loop returns OK and adds
exactly k running worker loops, leaving the pool configuration untouched. -/
lemma submitWorkerLoops_ok (ok : Nat → Bool) :
    ∀ (k i : Nat) (p : ThreadPool), (∀ j, j < k → ok (i + j) = true) →
    submitWorkerLoops ok p i k =
      (Status.ok, { p with running_workers := p.running_workers + k }) := by
  intro k
  induction k with
  | zero => intro i p h; rfl
  | succ k ih =>
      intro i p h
      have h0 : ok i = true := by simpa using h 0 (by omega)
      obtain ⟨nm, mn, mx, cg, rw0, sd⟩ := p
      show (if ok i then
              submitWorkerLoops ok (ThreadPool.mk nm mn mx cg rw0 sd).submit_func (i + 1) k
            else (Status.internalError "submit_func failed", ThreadPool.mk nm mn mx cg rw0 sd)) = _
      rw [h0]
      simp only [if_true]
      rw [ih (i + 1) (ThreadPool.mk nm mn mx cg rw0 sd).submit_func
            (fun j hj => by
              have hx := h (j + 1) (by omega)
              rw [show i + 1 + j = i + (j + 1) from by omega]
              exact hx)]
      show (Status.ok, ThreadPool.mk nm mn mx cg (rw0 + 1 + k) sd) = _
      rw [show rw0 + 1 + k = rw0 + (k + 1) from by omega]

/-- If the m-th submit fails (all earlier ones succeeding), the loop stops
with an error, leaving exactly m already-submitted worker loops in the pool. -/
lemma submitWorkerLoops_fail (ok : Nat → Bool) :
    ∀ (m k i : Nat) (p : ThreadPool), m < k →
    (∀ j, j < m → ok (i + j) = true) → ok (i + m) = false →
    (submitWorkerLoops ok p i k).1 ≠ Status.ok ∧
    (submitWorkerLoops ok p i k).2.running_workers = p.running_workers + m := by
  intro m
  induction m with
  | zero =>
      intro k i p hk hpre h0
      have h0' : ok i = false := by simpa using h0
      cases k with
      | zero => omega
      | succ k =>
          have hunf : submitWorkerLoops ok p i (k + 1) =
              if ok i then submitWorkerLoops ok p.submit_func (i + 1) k
              else (Status.internalError "submit_func failed", p) := rfl
          rw [hunf, h0']
          simp
  | succ m ih =>
      intro k i p hk hpre h0
      have hoki : ok i = true := by simpa using hpre 0 (by omega)
      cases k with
      | zero => omega
      | succ k =>
          have hrec := ih k (i + 1) p.submit_func (by omega)
            (fun j hj => by
              have hx := hpre (j + 1) (by omega)
              rw [show i + 1 + j = i + (j + 1) from by omega]
              exact hx)
            (by
              rw [show i + 1 + m = i + (m + 1) from by omega]
              exact h0)
          have hunf : submitWorkerLoops ok p i (k + 1) =
              if ok i then submitWorkerLoops ok p.submit_func (i + 1) k
              else (Status.internalError "submit_func failed", p) := rfl
          rw [hunf, hoki]
          simp only [if_true]
          refine ⟨hrec.1, ?_⟩
          rw [hrec.2]
          show p.running_workers + 1 + m = p.running_workers + (m + 1)
          omega

/-- Claim C1: in every reachable state of a SimplifiedScanScheduler system,
each worker loop behaves as _work prescribes: with the stop flag clear the
loop proceeds from its condition check into a blocking dequeue; whenever the
dequeue hands over a task, the worker holds that task and executes its scan
step synchronously as its next action; and when the dequeue delivers the
shutdown signal instead of a task, the stop flag is already set, so the only
step the worker can still take is to exit the loop. -/
theorem worker_loop_dequeues_executes_exits
    (n c : Nat) (tr : List Event) (s : SysState)
    (h : Reaches (initSys n c) tr s) :
    (∀ w, s.workers[w]? = some WorkerPC.checkStop → s.sched_is_stop = false →
        Step s (Event.checkCont w)
          { s with workers := s.workers.set w WorkerPC.deq }) ∧
    (∀ w t s', Step s (Event.deqTask w t) s' →
        s'.workers[w]? = some (WorkerPC.run t) ∧
        Step s' (Event.exec w t)
          { s' with workers := s'.workers.set w WorkerPC.checkStop,
                    execLog := s'.execLog ++ [t.runScanFunc] }) ∧
    (∀ w s', Step s (Event.deqShutdownSignal w) s' →
        s'.sched_is_stop = true ∧
        Step s' (Event.workerExit w)
          { s' with workers := s'.workers.set w WorkerPC.done } ∧
        (∀ e s'', Step s' e s'' → e.actor = some w →
            e = Event.workerExit w)) := by
  have hinv : SysInv s := reaches_preserves_inv h (initSys_inv n c)
  refine ⟨?_, ?_, ?_⟩
  · intro w hpc hstop
    exact Step.checkCont s w hpc hstop
  · intro w t s' hstep
    cases hstep with
    | deqTask v u q' hpc hget =>
        have hlen : w < s.workers.length := (List.getElem?_eq_some.mp hpc).1
        have hpc' : ((s.workers.set w (WorkerPC.run t))[w]? = some (WorkerPC.run t)) :=
          List.getElem?_set_eq_of_lt _ hlen
        exact ⟨hpc', Step.exec _ w t hpc'⟩
  · intro w s' hstep
    cases hstep with
    | deqShutdownSignal v q' hpc hget =>
        have hsd : s.queue.is_shutdown = true := (blocking_get_signal hget).1
        have hflag : s.sched_is_stop = true := hinv.1 (hinv.2 hsd)
        have hlen : w < s.workers.length := (List.getElem?_eq_some.mp hpc).1
        have hpc' : ((s.workers.set w WorkerPC.checkStop)[w]? = some WorkerPC.checkStop) :=
          List.getElem?_set_eq_of_lt _ hlen
        refine ⟨hflag, Step.workerExit _ w hpc' hflag, ?_⟩
        intro e s'' hstep2 hact
        exact only_exit_when_stopped hstep2 hpc' hflag hact

/-- Witness for C1: at the initial state of a one-worker system, clause one
of the theorem applies and yields the step from the loop condition into the
blocking dequeue. -/
theorem worker_loop_dequeues_executes_exits_witness :
    Step (initSys 1 2) (Event.checkCont 0)
      { initSys 1 2 with workers := (initSys 1 2).workers.set 0 WorkerPC.deq } :=
  (worker_loop_dequeues_executes_exits 1 2 [] (initSys 1 2)
    (Reaches.refl _)).1 0 (by decide) (by decide)

/-- Claim C2: on a scheduler whose worker pool exists (start() succeeded),
stop() performs exactly, in order: set the stop flag, shut down the bounded
queue, shut down the pool, wait for (join) the pool; afterwards the stop flag
is set, the queue is shut down so that a blocked dequeue is woken with the
shutdown signal rather than a value, and the pool is shut down with all
worker threads joined. -/
theorem stop_sequence_of_effects (s : SimplifiedScanScheduler) (p : ThreadPool)
    (hp : s._scan_thread_pool = some p) :
    s.stop.crashed = false ∧
    s.stop.effects = [StopEffect.setStopFlag, StopEffect.queueShutdown,
                      StopEffect.poolShutdown, StopEffect.poolWait] ∧
    s.stop.state._is_stop = true ∧
    s.stop.state._scan_task_queue.is_shutdown = true ∧
    s.stop.state._scan_task_queue.blocking_get
      = some (none, s.stop.state._scan_task_queue) ∧
    s.stop.state._scan_thread_pool = some p.shutdown.wait ∧
    p.shutdown.wait.is_shutdown = true ∧
    p.shutdown.wait.running_workers = 0 := by
  simp [SimplifiedScanScheduler.stop, hp, BlockingQueue.shutdown,
        BlockingQueue.blocking_get, ThreadPool.shutdown, ThreadPool.wait]

/-- Witness for C2 at a concrete scheduler with a built pool. -/
theorem stop_sequence_of_effects_witness :
    (SimplifiedScanScheduler.stop
      { _scan_thread_pool := some
          { name := "Scan_g", min_threads := 2, max_threads := 2,
            cgroup_cpu_ctl := none, running_workers := 2, is_shutdown := false }
      , _scan_task_queue := { items := [], capacity := 4, is_shutdown := false }
      , _is_stop := false, _cgroup_cpu_ctl := none, _wg_name := "g" }).crashed
      = false :=
  (stop_sequence_of_effects _ _ rfl).1

/-- start() returning OK implies the worker pool member was built. -/
lemma start_ok_pool_some {s : SimplifiedScanScheduler} {n : Nat} {env : StartEnv}
    {s' : SimplifiedScanScheduler}
    (h : s.start n env = (Status.ok, s')) :
    ∃ p : ThreadPool, s'._scan_thread_pool = some p := by
  cases hb : env.build_ok with
  | false =>
      unfold SimplifiedScanScheduler.start ThreadPoolBuilder.build at h
      rw [hb] at h
      simp at h
  | true =>
      unfold SimplifiedScanScheduler.start ThreadPoolBuilder.build at h
      rw [hb] at h
      simp at h
      obtain ⟨h1, h2⟩ := h
      exact ⟨_, by rw [← h2]⟩

/-- stop() on a scheduler whose pool exists does not crash, and running it a
second time reproduces the same end state without error. -/
lemma stop_idem_of_pool {s : SimplifiedScanScheduler} {p : ThreadPool}
    (hp : s._scan_thread_pool = some p) :
    s.stop.crashed = false ∧
    s.stop.state.stop.crashed = false ∧
    s.stop.state.stop.state = s.stop.state ∧
    s.stop.state.stop.effects = s.stop.effects := by
  obtain ⟨pool, q, st, cg, nm⟩ := s
  have hp' : pool = some p := hp
  subst hp'
  simp [SimplifiedScanScheduler.stop, BlockingQueue.shutdown,
        ThreadPool.shutdown, ThreadPool.wait]

/-- Claim C5: stop() is idempotent on every scheduler on which start() has
succeeded: neither call crashes (in particular no double-join fault is
modelled as a crash), and the state after two calls equals the state after
one, with the same effects performed. -/
theorem stop_idempotent (s s' : SimplifiedScanScheduler) (n : Nat)
    (env : StartEnv) (h : s.start n env = (Status.ok, s')) :
    s'.stop.crashed = false ∧
    s'.stop.state.stop.crashed = false ∧
    s'.stop.state.stop.state = s'.stop.state ∧
    s'.stop.state.stop.effects = s'.stop.effects := by
  obtain ⟨p, hp⟩ := start_ok_pool_some h
  exact stop_idem_of_pool hp

/-- Witness for C5 at a concrete scheduler started with two always-succeeding
submits. -/
theorem stop_idempotent_witness :
    (((SimplifiedScanScheduler.construct "g" none 4).start 2
        ⟨true, fun _ => true⟩).2.stop.state.stop.state
      = ((SimplifiedScanScheduler.construct "g" none 4).start 2
        ⟨true, fun _ => true⟩).2.stop.state) :=
  (stop_idempotent (SimplifiedScanScheduler.construct "g" none 4) _ 2
    ⟨true, fun _ => true⟩ (by decide)).2.2.1

/-- Claim C6: a worker that has successfully dequeued a task executes it
before exiting, in every interleaving (including those where the stop flag is
set concurrently): if the worker is observed holding the task and later
observed out of its loop, the execution event for that very task occurs in
the intervening trace. -/
theorem dequeued_task_runs_before_exit
    (s : SysState) (tr : List Event) (s' : SysState) (w : Nat)
    (t : SimplifiedScanTask)
    (hrun : s.workers[w]? = some (WorkerPC.run t))
    (h : Reaches s tr s')
    (hdone : s'.workers[w]? = some WorkerPC.done) :
    Event.exec w t ∈ tr := by
  rcases run_persists h hrun with h1 | h1
  · rw [hdone] at h1
    exact absurd h1 (by simp)
  · exact h1

/-- Witness for C6: a concrete interleaving in which stop() sets the flag
while the worker holds a dequeued task; the execution event still occurs. -/
theorem dequeued_task_runs_before_exit_witness :
    Event.exec 0 ⟨some 7, some 1⟩ ∈
      [Event.setStopFlag, Event.exec 0 ⟨some 7, some 1⟩, Event.workerExit 0] :=
  dequeued_task_runs_before_exit
    { sched_is_stop := false
    , queue := { items := [], capacity := 2, is_shutdown := false }
    , workers := [WorkerPC.run ⟨some 7, some 1⟩]
    , stopperPC := 0, execLog := [] }
    [Event.setStopFlag, Event.exec 0 ⟨some 7, some 1⟩, Event.workerExit 0]
    { sched_is_stop := true
    , queue := { items := [], capacity := 2, is_shutdown := false }
    , workers := [WorkerPC.done]
    , stopperPC := 1, execLog := [RunResult.ran 7] }
    0 ⟨some 7, some 1⟩ (by decide)
    (Reaches.step (Step.setStopFlag _ rfl)
      (Reaches.step (Step.exec _ 0 ⟨some 7, some 1⟩ (by decide))
        (Reaches.step (Step.workerExit _ 0 (by decide) rfl)
          (Reaches.refl _))))
    (by decide)

/-- Claim C3: when the pool build succeeds and all submits succeed, start()
returns OK having built a pool whose minimum and maximum thread counts both
equal the configured per-workload thread count, with the cgroup handle from
construction attached, and with exactly that many worker loops submitted and
running; and when pool construction fails, start() returns a failure
status. -/
theorem start_builds_fixed_pool (s : SimplifiedScanScheduler) (n : Nat)
    (env : StartEnv) :
    (env.build_ok = true → (∀ i, i < n → env.submit_ok i = true) →
      (s.start n env).1 = Status.ok ∧
      ∃ p : ThreadPool, (s.start n env).2._scan_thread_pool = some p ∧
        p.min_threads = n ∧ p.max_threads = n ∧
        p.cgroup_cpu_ctl = s._cgroup_cpu_ctl ∧
        p.running_workers = n ∧ p.is_shutdown = false) ∧
    (env.build_ok = false → (s.start n env).1 ≠ Status.ok) := by
  constructor
  · intro hb hsub
    unfold SimplifiedScanScheduler.start ThreadPoolBuilder.build
    rw [hb]
    simp only [if_pos]
    rw [submitWorkerLoops_ok env.submit_ok n 0 _
          (fun j hj => by simpa using hsub j hj)]
    exact ⟨rfl, _, rfl, rfl, rfl, rfl, by simp, rfl⟩
  · intro hb
    unfold SimplifiedScanScheduler.start ThreadPoolBuilder.build
    rw [hb]
    simp

/-- Witness for C3: a successful start with two threads, and a failing build. -/
theorem start_builds_fixed_pool_witness :
    ((SimplifiedScanScheduler.construct "g" (some 3) 4).start 2
        ⟨true, fun _ => true⟩).1 = Status.ok ∧
    ((SimplifiedScanScheduler.construct "g" (some 3) 4).start 2
        ⟨false, fun _ => true⟩).1 ≠ Status.ok :=
  ⟨((start_builds_fixed_pool (SimplifiedScanScheduler.construct "g" (some 3) 4) 2
      ⟨true, fun _ => true⟩).1 rfl (fun _ _ => rfl)).1,
   (start_builds_fixed_pool (SimplifiedScanScheduler.construct "g" (some 3) 4) 2
      ⟨false, fun _ => true⟩).2 rfl⟩

/-- Counterexample to claim C4 as stated: with thread count 2, a successful
pool build, a successful first submit and a failing second submit, start()
returns a failure status, yet the scheduler is left holding a pool with one
worker loop still running — a pool that was built only in part survives the failed
start(). -/
theorem start_failure_leaves_pool_cex :
    ((SimplifiedScanScheduler.construct "g" none 4).start 2
        ⟨true, fun i => i == 0⟩).1 ≠ Status.ok ∧
    (((SimplifiedScanScheduler.construct "g" none 4).start 2
        ⟨true, fun i => i == 0⟩).2._scan_thread_pool.map
          ThreadPool.running_workers) = some 1 := by
  constructor
  · decide
  · decide

/-- Claim C4 amended: if pool construction fails, start() returns a failure
and leaves the scheduler unchanged, holding no pool and hence no running
worker threads; but if a worker-loop submission fails after the pool was
built, start() returns a failure while leaving the already-built pool in
place with the previously submitted worker loops still running (they are torn
down only by stop()). -/
theorem start_failure_cleanup_amended (s : SimplifiedScanScheduler) (n : Nat)
    (env : StartEnv) :
    (env.build_ok = false →
      (s.start n env).1 ≠ Status.ok ∧ (s.start n env).2 = s) ∧
    (∀ m, m < n → env.build_ok = true →
      (∀ j, j < m → env.submit_ok j = true) → env.submit_ok m = false →
      (s.start n env).1 ≠ Status.ok ∧
      ∃ p : ThreadPool, (s.start n env).2._scan_thread_pool = some p ∧
        p.running_workers = m) := by
  constructor
  · intro hb
    unfold SimplifiedScanScheduler.start ThreadPoolBuilder.build
    rw [hb]
    exact ⟨by simp, by simp⟩
  · intro m hm hb hpre h0
    unfold SimplifiedScanScheduler.start ThreadPoolBuilder.build
    rw [hb]
    simp only [if_pos]
    refine ⟨(submitWorkerLoops_fail env.submit_ok m n 0 _ hm
        (fun j hj => by simpa using hpre j hj) (by simpa using h0)).1,
      _, rfl, ?_⟩
    rw [(submitWorkerLoops_fail env.submit_ok m n 0 _ hm
        (fun j hj => by simpa using hpre j hj) (by simpa using h0)).2]
    simp

/-- Witness for the amended C4, at the inputs of the counterexample plus a
failing build. -/
theorem start_failure_cleanup_amended_witness :
    ((SimplifiedScanScheduler.construct "g" none 4).start 2
        ⟨false, fun _ => true⟩).2 = SimplifiedScanScheduler.construct "g" none 4 ∧
    ((SimplifiedScanScheduler.construct "g" none 4).start 2
        ⟨true, fun i => i == 0⟩).1 ≠ Status.ok :=
  ⟨((start_failure_cleanup_amended (SimplifiedScanScheduler.construct "g" none 4)
      2 ⟨false, fun _ => true⟩).1 rfl).2,
   ((start_failure_cleanup_amended (SimplifiedScanScheduler.construct "g" none 4)
      2 ⟨true, fun i => i == 0⟩).2 1 (by decide) rfl
      (fun j hj => by
        have hj0 : j = 0 := by omega
        subst hj0
        rfl) rfl).1⟩

/-- Claim C7: at every scheduling decision point of one priority pool, the
selected pending task belongs to the pool, no available pending task has a
context with strictly lower cumulative service than the selected one, and on
equal service the selected task arrived no later. -/
theorem priority_pool_fairness (l : List PendingTask) (t : PendingTask)
    (h : pickNext l = some t) :
    t ∈ l ∧
    ∀ u ∈ l, ¬ u.service < t.service ∧
      (u.service = t.service → t.arrival ≤ u.arrival) := by
  cases l with
  | nil => exact absurd h (by simp [pickNext])
  | cons hd tl =>
      have ht : t = tl.foldl pickStep hd := by
        have : pickNext (hd :: tl) = some (tl.foldl pickStep hd) := rfl
        rw [this] at h
        exact (Option.some.injEq _ _ ▸ h.symm : _)
      subst ht
      obtain ⟨hall, hseed⟩ := pickFold_min tl hd
      constructor
      · rcases pickFold_mem tl hd with hm | hm
        · rw [hm]; simp
        · exact List.mem_cons_of_mem _ hm
      · intro u hu
        have hnp : u.preferredOver (tl.foldl pickStep hd) = false := by
          rcases List.mem_cons.mp hu with hu | hu
          · subst hu; exact hseed
          · exact hall u hu
        constructor
        · intro hlt
          rw [PendingTask.preferredOver] at hnp
          simp at hnp
          omega
        · intro heq
          rw [PendingTask.preferredOver] at hnp
          simp at hnp
          omega

/-- Witness for C7, the scenario of the spec: contexts with cumulative
service 100 and 0 both pending; the task of the service-0 context is picked,
is in the pool, and no pending task has strictly lower service. -/
theorem priority_pool_fairness_witness :
    (⟨1, 0, 1⟩ : PendingTask) ∈
      [(⟨0, 100, 0⟩ : PendingTask), (⟨1, 0, 1⟩ : PendingTask)] :=
  (priority_pool_fairness [⟨0, 100, 0⟩, ⟨1, 0, 1⟩] ⟨1, 0, 1⟩ rfl).1

/-- Claim C8: on a freshly constructed SimplifiedScanScheduler (start() never
called) the worker-pool pointer is null; stop() — reached directly or through
the destructor — still performs the flag store and the queue shutdown and
then dereferences the null pool pointer instead of failing cleanly; the same
happens when start() never succeeded in building the pool. -/
theorem stop_null_pool_deref (wg : String) (cg : Option Nat) (qs : Nat)
    (n : Nat) (env : StartEnv) :
    (SimplifiedScanScheduler.construct wg cg qs)._scan_thread_pool = none ∧
    (SimplifiedScanScheduler.construct wg cg qs).stop.crashed = true ∧
    (SimplifiedScanScheduler.construct wg cg qs).stop.effects
      = [StopEffect.setStopFlag, StopEffect.queueShutdown] ∧
    (SimplifiedScanScheduler.construct wg cg qs).destruct.crashed = true ∧
    (env.build_ok = false →
      (((SimplifiedScanScheduler.construct wg cg qs).start n env).2).stop.crashed
        = true) := by
  refine ⟨rfl, rfl, rfl, rfl, ?_⟩
  intro hb
  unfold SimplifiedScanScheduler.start ThreadPoolBuilder.build
  rw [hb]
  simp [SimplifiedScanScheduler.stop, SimplifiedScanScheduler.construct]

/-- Witness for C8 on a concrete scheduler whose start() failed to build. -/
theorem stop_null_pool_deref_witness :
    (((SimplifiedScanScheduler.construct "wg" none 4).start 2
        ⟨false, fun _ => true⟩).2).stop.crashed = true :=
  (stop_null_pool_deref "wg" none 4 2 ⟨false, fun _ => true⟩).2.2.2.2 rfl

/-- Claim C9: a default-constructed SimplifiedScanTask carries the empty
std::function and a null context; the worker loop invokes scan_func on it
without any emptiness check, so executing such a task yields
bad_function_call rather than a safe no-op — shown on a concrete reachable
execution in which the default task is enqueued, dequeued and invoked. -/
theorem empty_scan_func_invoked :
    SimplifiedScanTask.defaultTask.scan_func = none ∧
    SimplifiedScanTask.defaultTask.scanner_context = none ∧
    SimplifiedScanTask.defaultTask.runScanFunc = RunResult.badFunctionCall ∧
    Reaches (initSys 1 2)
      [Event.enq SimplifiedScanTask.defaultTask, Event.checkCont 0,
       Event.deqTask 0 SimplifiedScanTask.defaultTask,
       Event.exec 0 SimplifiedScanTask.defaultTask]
      { sched_is_stop := false
      , queue := { items := [], capacity := 2, is_shutdown := false }
      , workers := [WorkerPC.checkStop]
      , stopperPC := 0
      , execLog := [RunResult.badFunctionCall] } := by
  refine ⟨rfl, rfl, rfl, ?_⟩
  refine Reaches.step (Step.enq _ SimplifiedScanTask.defaultTask
      { items := [SimplifiedScanTask.defaultTask], capacity := 2,
        is_shutdown := false } (by decide)) ?_
  refine Reaches.step (Step.checkCont _ 0 (by decide) rfl) ?_
  refine Reaches.step (Step.deqTask _ 0 SimplifiedScanTask.defaultTask
      { items := [], capacity := 2, is_shutdown := false } (by decide)
      (by decide)) ?_
  exact Reaches.step (Step.exec _ 0 SimplifiedScanTask.defaultTask (by decide))
    (Reaches.refl _)

/-- Counterexample to claim C10 as stated: a worker that has already passed
the loop condition can dequeue and execute a task that was pending at the
very moment the stop flag was set. Concretely: a task is enqueued and the
worker enters blocking_get; stop() then sets the stop flag (the task is still
pending at that moment, second and third conjuncts); afterwards the worker
dequeues and executes that task (fourth conjunct), so the task is not
discarded (final log, fifth conjunct). -/
theorem pending_task_executed_after_flag_cex :
    Reaches (initSys 1 2)
      [Event.enq ⟨some 7, some 1⟩, Event.checkCont 0]
      { sched_is_stop := false
      , queue := { items := [⟨some 7, some 1⟩], capacity := 2, is_shutdown := false }
      , workers := [WorkerPC.deq], stopperPC := 0, execLog := [] } ∧
    Step { sched_is_stop := false
         , queue := { items := [⟨some 7, some 1⟩], capacity := 2, is_shutdown := false }
         , workers := [WorkerPC.deq], stopperPC := 0, execLog := [] }
      Event.setStopFlag
      { sched_is_stop := true
      , queue := { items := [⟨some 7, some 1⟩], capacity := 2, is_shutdown := false }
      , workers := [WorkerPC.deq], stopperPC := 1, execLog := [] } ∧
    ({ sched_is_stop := true
     , queue := { items := [⟨some 7, some 1⟩], capacity := 2, is_shutdown := false }
     , workers := [WorkerPC.deq], stopperPC := 1, execLog := [] } : SysState).queue.items
      = [⟨some 7, some 1⟩] ∧
    Reaches
      { sched_is_stop := true
      , queue := { items := [⟨some 7, some 1⟩], capacity := 2, is_shutdown := false }
      , workers := [WorkerPC.deq], stopperPC := 1, execLog := [] }
      [Event.deqTask 0 ⟨some 7, some 1⟩, Event.exec 0 ⟨some 7, some 1⟩]
      { sched_is_stop := true
      , queue := { items := [], capacity := 2, is_shutdown := false }
      , workers := [WorkerPC.checkStop], stopperPC := 1
      , execLog := [RunResult.ran 7] } ∧
    ([RunResult.ran 7] : List RunResult) ≠ [] := by
  refine ⟨?_, Step.setStopFlag _ rfl, rfl, ?_, by simp⟩
  · refine Reaches.step (Step.enq _ ⟨some 7, some 1⟩
        { items := [⟨some 7, some 1⟩], capacity := 2, is_shutdown := false }
        (by decide)) ?_
    exact Reaches.step (Step.checkCont _ 0 (by decide) rfl) (Reaches.refl _)
  · refine Reaches.step (Step.deqTask _ 0 ⟨some 7, some 1⟩
        { items := [], capacity := 2, is_shutdown := false } (by decide)
        (by decide)) ?_
    exact Reaches.step (Step.exec _ 0 ⟨some 7, some 1⟩ (by decide))
      (Reaches.refl _)

/-- Claim C10 amended: once the queue shutdown performed by stop() has taken
effect, no worker dequeues any task any more — every task still pending at
that point stays in the queue, discarded without ever being executed. (A
worker that passed the stop-flag check before the flag was set may still
dequeue one pending task in the window before the queue shutdown; after the
shutdown no dequeue event can occur.) -/
theorem no_dequeue_after_queue_shutdown :
    ∀ {s : SysState} {tr : List Event} {s' : SysState}, Reaches s tr s' →
    s.queue.is_shutdown = true →
    (∀ w t, Event.deqTask w t ∉ tr) ∧ s'.queue.items = s.queue.items := by
  intro s tr s' h
  induction h with
  | refl s => intro _; exact ⟨by simp, rfl⟩
  | @step s1 e s2 tr' s3 h1 h2 ih =>
      intro hsd
      have hsd2 : s2.queue.is_shutdown = true := step_shutdown_mono h1 hsd
      obtain ⟨ihn, ihi⟩ := ih hsd2
      have hitems : s2.queue.items = s1.queue.items := by
        cases h1 with
        | checkCont v hpc hstop => rfl
        | workerExit v hpc hstop => rfl
        | deqTask v u q' hpc hget =>
            have hx := (blocking_get_task hget).1
            rw [hsd] at hx
            exact absurd hx (by simp)
        | deqShutdownSignal v q' hpc hget =>
            show q'.items = s1.queue.items
            rw [(blocking_get_signal hget).2]
        | exec v u hpc => rfl
        | enq u q' hput =>
            have hx := (blocking_put_success hput).1
            rw [hsd] at hx
            exact absurd hx (by simp)
        | setStopFlag hpc => rfl
        | queueShutdown hpc => rfl
      refine ⟨?_, by rw [ihi, hitems]⟩
      intro w t hmem
      rcases List.mem_cons.mp hmem with hmem | hmem
      · rw [← hmem] at h1
        have hx := deqTask_not_shutdown h1
        rw [hsd] at hx
        exact absurd hx (by simp)
      · exact ihn w t hmem

/-- Witness for the amended C10: on a shut-down queue holding one pending
task, a trace in which the worker exits leaves the pending task in place. -/
theorem no_dequeue_after_queue_shutdown_witness :
    ({ sched_is_stop := true
     , queue := { items := [⟨some 7, some 1⟩], capacity := 2, is_shutdown := true }
     , workers := [WorkerPC.done], stopperPC := 2
     , execLog := [] } : SysState).queue.items =
    ({ sched_is_stop := true
     , queue := { items := [⟨some 7, some 1⟩], capacity := 2, is_shutdown := true }
     , workers := [WorkerPC.checkStop], stopperPC := 2
     , execLog := [] } : SysState).queue.items :=
  (no_dequeue_after_queue_shutdown
    (Reaches.step
      (Step.workerExit
        { sched_is_stop := true
        , queue := { items := [⟨some 7, some 1⟩], capacity := 2, is_shutdown := true }
        , workers := [WorkerPC.checkStop], stopperPC := 2, execLog := [] }
        0 (by decide) rfl)
      (Reaches.refl _))
    rfl).2

end Doris
